import Mathlib

/-!
Shallow embedding of the transcription pipeline of src/transcriber.js
(class Transcriber) together with theorems checking the specification's
claims about it.  Byte buffers are lists of naturals (byte values),
durations are exact rationals, and the external world (Groq API answers,
whisper subprocess outcomes, clock readings) is passed in as explicit
oracle arguments.
-/

namespace WAS

/-! Byte-level primitives: the layouts produced by Node's
Buffer.writeUInt32LE and Buffer.writeUInt16LE (both require the value to
fit the field width, so no wrap-around occurs in legal calls). -/

/-- Little-endian layout of a 32-bit value (Buffer.writeUInt32LE). -/
def u32le (n : Nat) : List Nat :=
  [n % 256, n / 256 % 256, n / 65536 % 256, n / 16777216 % 256]

/-- Little-endian layout of a 16-bit value (Buffer.writeUInt16LE). -/
def u16le (n : Nat) : List Nat :=
  [n % 256, n / 256 % 256]

/-- Value denoted by four little-endian bytes. -/
def readU32 : List Nat → Nat
  | [b0, b1, b2, b3] => b0 + 256 * b1 + 65536 * b2 + 16777216 * b3
  | _ => 0

/-- Value denoted by two little-endian bytes. -/
def readU16 : List Nat → Nat
  | [b0, b1] => b0 + 256 * b1
  | _ => 0

/-- transcriber.js writeWav (lines 247-270): the 44-byte RIFF/WAVE header
followed by the raw PCM payload.  The four-character tags are written as
their ASCII byte values (RIFF, WAVE, fmt with a trailing space, data). -/
def writeWav (pcmBuffer : List Nat) (sampleRate channelCount : Nat) : List Nat :=
  let bitsPerSample := 16
  let byteRate := sampleRate * channelCount * (bitsPerSample / 8)
  let blockAlign := channelCount * (bitsPerSample / 8)
  let dataSize := pcmBuffer.length
  let fileSize := 36 + dataSize
  [82, 73, 70, 70]
    ++ u32le fileSize
    ++ [87, 65, 86, 69]
    ++ [102, 109, 116, 32]
    ++ u32le 16
    ++ u16le 1
    ++ u16le channelCount
    ++ u32le sampleRate
    ++ u32le byteRate
    ++ u16le blockAlign
    ++ u16le bitsPerSample
    ++ [100, 97, 116, 97]
    ++ u32le dataSize
    ++ pcmBuffer

/-- View of a byte buffer as signed 16-bit little-endian samples, as the
Int16Array view in hasVoiceActivity presents it; a trailing odd byte is
ignored (the view length is the floor of half the byte length). -/
def toInt16Samples : List Nat → List Int
  | b0 :: b1 :: rest =>
      (let u := b0 + 256 * b1
       if u < 32768 then (u : Int) else (u : Int) - 65536) :: toInt16Samples rest
  | _ => []

/-- The avgEnergy of hasVoiceActivity (line 279): sum of absolute sample
values divided by the sample count.  The JS quotient is a float and on an
empty sample list is NaN; the rational division by zero yields 0 here, and
either value makes the threshold comparison below false. -/
def avgEnergy (pcmBuffer : List Nat) : ℚ :=
  let samples := toInt16Samples pcmBuffer
  let sum : Nat := (samples.map Int.natAbs).sum
  (sum : ℚ) / (samples.length : ℚ)

/-- transcriber.js hasVoiceActivity (lines 273-283): mean absolute amplitude
of the 16-bit samples compared against the fixed threshold 50. -/
def hasVoiceActivity (pcmBuffer : List Nat) : Bool :=
  decide (avgEnergy pcmBuffer > 50)

/-- Division-free form of the same gate, used to evaluate it on concrete
buffers; hasVoiceActivityN_eq proves it equal to hasVoiceActivity. -/
def hasVoiceActivityN (pcmBuffer : List Nat) : Bool :=
  let samples := toInt16Samples pcmBuffer
  let sum : Nat := (samples.map Int.natAbs).sum
  decide (50 * samples.length < sum)

/-! The transcription queue (this.queue) and its jobs. -/

/-- A queued transcription job (the object pushed at lines 195-202). -/
structure Job where
  socketId : String
  userId : String
  roomId : String
  audioBuffer : List Nat
  sampleRate : Nat
  channelCount : Nat
deriving DecidableEq

/-- The queue mutation of queueTranscription lines 190-202: if the queue
already holds 3 or more jobs, shift off the oldest, then push the new job. -/
def enqueueJob (q : List Job) (j : Job) : List Job :=
  (if q.length ≥ 3 then q.tail else q) ++ [j]

/-- Queue operations: enqueue (queueTranscription) and dequeue (the shift
at line 211 of processQueue). -/
inductive QOp where
  | enq (j : Job)
  | deq
deriving DecidableEq

def applyQOp (q : List Job) : QOp → List Job
  | .enq j => enqueueJob q j
  | .deq => q.tail

/-- The queue contents after a sequence of operations starting empty. -/
def runQOps (ops : List QOp) : List Job :=
  ops.foldl applyQOp []

/-! Worker state machine for processQueue (lines 207-245).  isProcessing is
the flag of the Transcriber; inFlight counts provider calls currently
executing.  JS runs these handlers on a single event loop, and processQueue
has no await between its guard and setting isProcessing, nor between
clearing isProcessing in the finally block and re-invoking itself, so each
of those sequences is modelled as one atomic transition. -/

structure WorkerState where
  queue : List Job
  isProcessing : Bool
  inFlight : Nat
deriving DecidableEq

/-- One processQueue invocation up to its first await: return if busy or
empty, otherwise set isProcessing, shift the head job off the queue and
start its provider call. -/
def drain (s : WorkerState) : WorkerState :=
  if s.isProcessing = true ∨ s.queue = [] then s
  else { queue := s.queue.tail, isProcessing := true, inFlight := s.inFlight + 1 }

/-- The finally block (lines 240-244) run when a provider call completes,
in success and in failure alike: the call ends, isProcessing is cleared,
and processQueue is immediately re-invoked. -/
def completeStep (s : WorkerState) : WorkerState :=
  drain { s with isProcessing := false, inFlight := s.inFlight - 1 }

/-- Events of the worker: a job arrival (queueTranscription pushes and then
calls processQueue, line 204) and the completion of the in-flight call. -/
inductive WStep : WorkerState → WorkerState → Prop
  | enqueue (j : Job) (s : WorkerState) :
      WStep s (drain { s with queue := enqueueJob s.queue j })
  | complete (s : WorkerState) (h : s.isProcessing = true) :
      WStep s (completeStep s)

/-- Constructor state: empty queue, not processing, nothing in flight. -/
def initWorker : WorkerState :=
  { queue := [], isProcessing := false, inFlight := 0 }

/-- States the worker can reach from the constructor state. -/
inductive ReachableW : WorkerState → Prop
  | init : ReachableW initWorker
  | step {s t : WorkerState} : ReachableW s → WStep s t → ReachableW t

/-! Room sessions (this.sessions) and the transcript files. -/

/-- One transcript entry (saveTranscription lines 95-99); the timestamp is
the millisecond clock value passed in. -/
structure Entry where
  timestamp : Nat
  userId : String
  text : String
deriving DecidableEq

/-- In-memory session object (startSession lines 57-61). -/
structure Session where
  filePath : String
  startedAt : String
  transcriptions : List Entry
deriving DecidableEq

/-- The YAML document written to the session file. -/
structure SessionDoc where
  room : String
  startedAt : String
  endedAt : Option String
  transcriptions : List Entry
deriving DecidableEq

/-- One fs.writeFileSync of a session document. -/
structure FileWrite where
  path : String
  doc : SessionDoc
deriving DecidableEq

/-- The sessions map, roomId keyed (JS Map iterated in insertion order). -/
abbrev Sessions := List (String × Session)

def lookupSession : Sessions → String → Option Session
  | [], _ => none
  | (k, s) :: rest, roomId => if k = roomId then some s else lookupSession rest roomId

/-- In-place mutation of the stored session object. -/
def updateSession (sessions : Sessions) (roomId : String) (s : Session) : Sessions :=
  sessions.map fun kv => if kv.1 = roomId then (kv.1, s) else kv

/-- Map deletion (this.sessions.delete at line 87). -/
def removeSession (sessions : Sessions) (roomId : String) : Sessions :=
  sessions.filter fun kv => !(kv.1 = roomId)

/-- The regex replace at line 53: every colon and period of the ISO
timestamp becomes a hyphen. -/
def sanitizeTimestamp (s : String) : String :=
  String.mk (s.toList.map fun c => if c = ':' ∨ c = '.' then '-' else c)

/-- transcriber.js startSession (lines 47-74).  The clock reading (the ISO
string of new Date) is the argument now.  Returns the session handed back
to the caller, the updated map, and the file writes performed. -/
def startSession (sessions : Sessions) (roomId : String) (now : String) :
    Session × Sessions × List FileWrite :=
  match lookupSession sessions roomId with
  | some s => (s, sessions, [])
  | none =>
      let timestamp := sanitizeTimestamp now
      let fileName := roomId ++ "_" ++ timestamp ++ ".yaml"
      let session : Session := { filePath := fileName, startedAt := now, transcriptions := [] }
      (session, sessions ++ [(roomId, session)],
        [{ path := fileName,
           doc := { room := roomId, startedAt := now, endedAt := none, transcriptions := [] } }])

/-- transcriber.js endSession (lines 76-89): final rewrite with an end time
stamped, then deletion from the map; absent room is a no-op. -/
def endSession (sessions : Sessions) (roomId : String) (endTime : String) :
    Sessions × List FileWrite :=
  match lookupSession sessions roomId with
  | none => (sessions, [])
  | some session =>
      (removeSession sessions roomId,
        [{ path := session.filePath,
           doc := { room := roomId, startedAt := session.startedAt,
                    endedAt := some endTime, transcriptions := session.transcriptions } }])

/-- transcriber.js saveTranscription (lines 91-109): early return with no
effect when the room has no session; otherwise push the entry and rewrite
the whole document. -/
def saveTranscription (sessions : Sessions) (roomId userId text : String)
    (timestamp : Nat) : Sessions × List FileWrite :=
  match lookupSession sessions roomId with
  | none => (sessions, [])
  | some session =>
      let entry : Entry := { timestamp := timestamp, userId := userId, text := text }
      let session2 := { session with transcriptions := session.transcriptions ++ [entry] }
      (updateSession sessions roomId session2,
        [{ path := session.filePath,
           doc := { room := roomId, startedAt := session.startedAt, endedAt := none,
                    transcriptions := session2.transcriptions } }])

/-- Session-map operations reachable through the Transcriber. -/
inductive SessOp where
  | start (roomId now : String)
  | finish (roomId endTime : String)
  | save (roomId userId text : String) (timestamp : Nat)

def applySessOp (sessions : Sessions) : SessOp → Sessions
  | .start roomId now => (startSession sessions roomId now).2.1
  | .finish roomId endTime => (endSession sessions roomId endTime).1
  | .save r u t ts => (saveTranscription sessions r u t ts).1

/-- Session map after a sequence of operations starting from the empty map. -/
def runSessOps (ops : List SessOp) : Sessions :=
  ops.foldl applySessOp []

/-! The two provider variants. -/

/-- The JS String.prototype.trim of the transcript strings, as an
executable function: strip leading and trailing whitespace. -/
def jsTrim (s : String) : String :=
  String.mk (((s.toList.dropWhile Char.isWhitespace).reverse.dropWhile
    Char.isWhitespace).reverse)

/-- The JS String.prototype.toLowerCase on the transcript strings. -/
def jsToLower (s : String) : String :=
  String.mk (s.toList.map Char.toLower)

/-- The fixed deny-list of transcribeWithGroq (lines 305-309). -/
def hallucinations : List String :=
  ["thank you", "thanks for watching", "thanks for listening",
   "subscribe", "like and subscribe", "see you next time",
   "bye", "goodbye", "the end"]

/-- The deny-list test of lines 311-312: trim and lower-case, then compare
against each phrase with or without one trailing period. -/
def isHallucination (transcription : String) : Bool :=
  let text := jsToLower (jsTrim transcription)
  hallucinations.any fun h => text == h || text == h ++ "."

/-- Lines 311-315: a deny-listed transcription collapses to empty text;
anything else is returned unchanged (the original, untrimmed string). -/
def filterHallucinations (transcription : String) : String :=
  if isHallucination transcription then "" else transcription

/-- transcriber.js transcribeWithGroq (lines 285-318).  The bytes read back
from the wav file are the argument; the API answer is the oracle resp
(error = network or service failure).  First component: the buffers the
voice-activity gate is applied to on this path, in order. -/
def transcribeWithGroq (wavBytes : List Nat) (resp : Except Unit String) :
    List (List Nat) × Except Unit String :=
  if hasVoiceActivity wavBytes then
    match resp with
    | .error e => ([wavBytes], .error e)
    | .ok transcription => ([wavBytes], .ok (filterHallucinations transcription))
  else
    ([wavBytes], .ok "")

/-- transcriber.js transcribeWithLocalWhisper (lines 320-358).  The oracle
describes the subprocess outcome: error = spawn failure or nonzero exit
(the promise rejects); ok none = zero exit with no output file, resolved as
empty text; ok (some t) = zero exit with transcript t.  This path performs
no voice-activity check and no deny-list filtering, so its gate-invocation
list is empty. -/
def transcribeWithLocalWhisper (result : Except Unit (Option String)) :
    List (List Nat) × Except Unit String :=
  match result with
  | .error e => ([], .error e)
  | .ok none => ([], .ok "")
  | .ok (some transcript) => ([], .ok transcript)

/-- The provider selected at startup (this.provider). -/
inductive Provider where
  | groq
  | localWhisper
deriving DecidableEq

/-- The provider dispatch of processQueue lines 218-222. -/
def providerCall (provider : Provider) (wavBytes : List Nat)
    (remoteResp : Except Unit String) (localResp : Except Unit (Option String)) :
    List (List Nat) × Except Unit String :=
  match provider with
  | .groq => transcribeWithGroq wavBytes remoteResp
  | .localWhisper => transcribeWithLocalWhisper localResp

/-- One transcription event broadcast to the room (lines 232-236). -/
structure Emit where
  userId : String
  text : String
  timestamp : Nat
deriving DecidableEq

/-- Outcome of processing one dequeued job. -/
structure JobResult where
  sessions : Sessions
  writes : List FileWrite
  emits : List Emit
  vadChecks : List (List Nat)
deriving DecidableEq

/-- The body of processQueue for one dequeued item (lines 213-239): encode
the wav file, call the selected provider, and on an accepted non-blank
transcript persist and broadcast it; a caught provider error leaves no
trace beyond the log.  The clock reading Date.now() is the argument now. -/
def processOneJob (provider : Provider) (sessions : Sessions) (item : Job)
    (remoteResp : Except Unit String) (localResp : Except Unit (Option String))
    (now : Nat) : JobResult :=
  let wavBytes := writeWav item.audioBuffer item.sampleRate item.channelCount
  let called := providerCall provider wavBytes remoteResp localResp
  match called.2 with
  | .error _ => { sessions := sessions, writes := [], emits := [], vadChecks := called.1 }
  | .ok transcript =>
      if jsTrim transcript = "" then
        { sessions := sessions, writes := [], emits := [], vadChecks := called.1 }
      else
        let text := jsTrim transcript
        let saved := saveTranscription sessions item.roomId item.userId text now
        { sessions := saved.1, writes := saved.2,
          emits := [{ userId := item.userId, text := text, timestamp := now }],
          vadChecks := called.1 }

/-- The complete list of payloads the voice-activity gate examines for one
job carrying raw PCM pcm: the pre-queue check of queueTranscription line
186 on the raw payload, followed by whatever checks the selected provider
performs once the job reaches the worker. -/
def vadTrace (provider : Provider) (pcm : List Nat) (sampleRate channelCount : Nat)
    (remoteResp : Except Unit String) (localResp : Except Unit (Option String)) :
    List (List Nat) :=
  pcm :: (providerCall provider (writeWav pcm sampleRate channelCount) remoteResp localResp).1

/-! Per-peer audio buffering. -/

/-- The mutable per-peer record (createPeer lines 127-136, audio fields). -/
structure PeerData where
  buffer : List (List Nat)
  bufferDuration : ℚ
  userId : String
  roomId : String
  sampleRate : Nat
  channelCount : Nat
deriving DecidableEq

/-- transcriber.js queueTranscription (lines 178-205): flush the buffered
chunks into one payload, reset buffer and duration, gate on voice activity
and enqueue on acceptance.  Returns the peer record, the queue, and the
payloads the gate was applied to. -/
def queueTranscription (socketId : String) (pd : PeerData) (q : List Job) :
    PeerData × List Job × List (List Nat) :=
  if pd.buffer.length = 0 then (pd, q, [])
  else
    let audioBuffer := pd.buffer.flatten
    let pd1 := { pd with buffer := [], bufferDuration := 0 }
    if hasVoiceActivity audioBuffer then
      (pd1,
        enqueueJob q
          { socketId := socketId, userId := pd.userId, roomId := pd.roomId,
            audioBuffer := audioBuffer, sampleRate := pd.sampleRate,
            channelCount := pd.channelCount },
        [audioBuffer])
    else
      (pd1, q, [audioBuffer])

/-- One incoming decoded audio frame (the data of sink.ondata). -/
structure Frame where
  samples : List Int
  sampleRate : Nat
  channelCount : Nat

/-- Two's-complement little-endian bytes of one 16-bit sample. -/
def int16Bytes (s : Int) : List Nat :=
  let u := (s % 65536).toNat
  [u % 256, u / 256]

/-- Byte image of a frame's sample array (Buffer.from(data.samples.buffer)). -/
def encodeInt16LE (samples : List Int) : List Nat :=
  (samples.map int16Bytes).flatten

/-- Seconds of audio one frame carries: sample count over sample rate. -/
def durOf (f : Frame) : ℚ :=
  (f.samples.length : ℚ) / (f.sampleRate : ℚ)

/-- Total duration of a frame list. -/
def dsum (frames : List Frame) : ℚ :=
  (frames.map durOf).sum

/-- The sink.ondata handler of setupAudioSink (lines 166-175): append the
frame bytes, add its duration, record rate and channel count, and flush
through queueTranscription once the accumulated duration reaches the
configured threshold.  The third state component counts flushes. -/
def ondata (cfg : ℚ) (socketId : String) (pd : PeerData) (q : List Job)
    (flushes : Nat) (f : Frame) : PeerData × List Job × Nat :=
  let pd2 := { pd with
      buffer := pd.buffer ++ [encodeInt16LE f.samples],
      bufferDuration := pd.bufferDuration + durOf f,
      sampleRate := f.sampleRate,
      channelCount := f.channelCount }
  if pd2.bufferDuration ≥ cfg then
    let r := queueTranscription socketId pd2 q
    (r.1, r.2.1, flushes + 1)
  else
    (pd2, q, flushes)

/-- Deliver a sequence of frames to one peer. -/
def runFrames (cfg : ℚ) (socketId : String) (frames : List Frame)
    (st : PeerData × List Job × Nat) : PeerData × List Job × Nat :=
  frames.foldl (fun st f => ondata cfg socketId st.1 st.2.1 st.2.2 f) st

/-- A freshly created peer record (createPeer defaults). -/
def freshPeer (userId roomId : String) : PeerData :=
  { buffer := [], bufferDuration := 0, userId := userId, roomId := roomId,
    sampleRate := 48000, channelCount := 1 }

/-! Concrete inputs used by the witnesses. -/

/-- A job whose two-byte payload is the single sample 32767, loud enough to
pass the energy gate even after wav framing. -/
def jobA : Job :=
  { socketId := "s1", userId := "u1", roomId := "r1",
    audioBuffer := [255, 127], sampleRate := 48000, channelCount := 1 }

def jobB : Job := { jobA with socketId := "s2", userId := "u2" }

def jobC : Job := { jobA with socketId := "s3", userId := "u3" }

def jobD : Job := { jobA with socketId := "s4", userId := "u4" }

/-- A job for a room with no open session. -/
def jobR9 : Job := { jobA with roomId := "r9" }

/-! Helper lemmas. -/

/-- The executable form of the gate agrees with the source-level form: for a
nonempty sample list the mean exceeds 50 exactly when the sum exceeds 50
times the count, and for the empty list both sides are false. -/
theorem hasVoiceActivityN_eq (pcm : List Nat) :
    hasVoiceActivityN pcm = hasVoiceActivity pcm := by
  unfold hasVoiceActivityN hasVoiceActivity avgEnergy
  simp only [decide_eq_decide, gt_iff_lt]
  rcases Nat.eq_zero_or_pos (toInt16Samples pcm).length with h | h
  · rw [List.length_eq_zero] at h
    simp [h]
  · have hq : (0:ℚ) < ((toInt16Samples pcm).length : ℚ) := by exact_mod_cast h
    rw [lt_div_iff₀ hq]
    constructor
    · intro hlt
      exact_mod_cast hlt
    · intro hlt
      exact_mod_cast hlt

/-- Enqueue keeps the queue within the capacity 3. -/
theorem enqueueJob_length_le (q : List Job) (j : Job) (h : q.length ≤ 3) :
    (enqueueJob q j).length ≤ 3 := by
  unfold enqueueJob
  by_cases h3 : q.length ≥ 3
  · rw [if_pos h3]
    simp only [List.length_append, List.length_tail, List.length_cons, List.length_nil]
    omega
  · rw [if_neg h3]
    simp only [List.length_append, List.length_cons, List.length_nil]
    omega

/-- Any operation sequence keeps a within-capacity queue within capacity. -/
theorem foldl_applyQOp_length_le (ops : List QOp) (q : List Job) (h : q.length ≤ 3) :
    (ops.foldl applyQOp q).length ≤ 3 := by
  induction ops generalizing q with
  | nil => simpa using h
  | cons op rest ih =>
      cases op with
      | enq j => exact ih _ (enqueueJob_length_le q j h)
      | deq =>
          refine ih _ ?_
          simp only [applyQOp, List.length_tail]
          omega

/-- The worker invariant: the in-flight provider-call count is exactly the
indicator of the isProcessing flag. -/
def WInv (s : WorkerState) : Prop :=
  s.inFlight = if s.isProcessing then 1 else 0

theorem wInv_drain (s : WorkerState) (h : WInv s) : WInv (drain s) := by
  unfold WInv drain at *
  by_cases hc : s.isProcessing = true ∨ s.queue = []
  · rw [if_pos hc]
    exact h
  · rw [if_neg hc]
    have hI : s.isProcessing = false := by
      rcases Bool.eq_false_or_eq_true s.isProcessing with h1 | h1
      · exact absurd (Or.inl h1) hc
      · exact h1
    rw [hI] at h
    simp only [Bool.false_eq_true, if_false] at h
    simp only [if_true]
    omega

theorem wInv_step {s t : WorkerState} (h : WInv s) (st : WStep s t) : WInv t := by
  cases st with
  | enqueue j s =>
      apply wInv_drain
      exact h
  | complete s hp =>
      apply wInv_drain
      unfold WInv at *
      rw [hp] at h
      simp only [if_true] at h
      simp only [Bool.false_eq_true, if_false]
      omega

theorem wInv_reachable (s : WorkerState) (h : ReachableW s) : WInv s := by
  induction h with
  | init => rfl
  | step _ st ih => exact wInv_step ih st

/-- A room id that lookupSession misses is not among the map's keys. -/
theorem lookupSession_none_not_mem (sessions : Sessions) (roomId : String) :
    lookupSession sessions roomId = none → roomId ∉ sessions.map Prod.fst := by
  induction sessions with
  | nil =>
      intro _
      simp
  | cons kv rest ih =>
      obtain ⟨k, v⟩ := kv
      intro h
      unfold lookupSession at h
      rw [List.map_cons, List.mem_cons]
      push_neg
      by_cases hk : k = roomId
      · rw [if_pos hk] at h
        cases h
      · rw [if_neg hk] at h
        exact ⟨fun he => hk he.symm, ih h⟩

/-- Every session-map operation preserves distinctness of the room keys. -/
theorem keys_nodup_applySessOp (sessions : Sessions) (op : SessOp)
    (h : (sessions.map Prod.fst).Nodup) :
    ((applySessOp sessions op).map Prod.fst).Nodup := by
  cases op with
  | start roomId now =>
      simp only [applySessOp]
      unfold startSession
      cases hl : lookupSession sessions roomId with
      | some s => simpa using h
      | none =>
          simp only [List.map_append, List.map_cons, List.map_nil]
          rw [List.nodup_append]
          refine ⟨h, List.nodup_singleton _, ?_⟩
          intro a ha hb
          simp only [List.mem_singleton] at hb
          subst hb
          exact lookupSession_none_not_mem sessions _ hl ha
  | finish roomId endTime =>
      simp only [applySessOp]
      unfold endSession
      cases hl : lookupSession sessions roomId with
      | none => simpa using h
      | some s =>
          simp only [removeSession]
          exact h.sublist ((List.filter_sublist _).map Prod.fst)
  | save r u t ts =>
      simp only [applySessOp]
      unfold saveTranscription
      cases hl : lookupSession sessions r with
      | none => simpa using h
      | some s =>
          simp only [updateSession, List.map_map]
          have he : sessions.map (Prod.fst ∘ fun kv =>
              if kv.1 = r then (kv.1, { s with transcriptions := s.transcriptions ++
                [{ timestamp := ts, userId := u, text := t }] }) else kv) =
              sessions.map Prod.fst := by
            apply List.map_congr_left
            intro kv _
            by_cases hk : kv.1 = r <;> simp [hk]
          rw [he]
          exact h

/-- Starting from the empty session map, any operation sequence leaves the
room keys distinct. -/
theorem runSessOps_keys_nodup (ops : List SessOp) :
    ((runSessOps ops).map Prod.fst).Nodup := by
  suffices h : ∀ (ops2 : List SessOp) (sessions : Sessions),
      (sessions.map Prod.fst).Nodup →
      ((ops2.foldl applySessOp sessions).map Prod.fst).Nodup by
    exact h ops [] (by simp)
  intro ops2
  induction ops2 with
  | nil =>
      intro sessions h
      simpa using h
  | cons op rest ih =>
      intro sessions h
      exact ih _ (keys_nodup_applySessOp sessions op h)

/-! Claim theorems. -/

/-- C1: in every reachable worker state at most one provider call is in
flight; a drain attempt while isProcessing is set starts nothing (the state
is unchanged), and completion of a job with work still queued transitions
in one step, with no intervening delay, to a state that is again processing
the next queued job with exactly one call in flight. -/
theorem single_inflight (s : WorkerState) (h : ReachableW s) :
    s.inFlight ≤ 1 ∧
    (s.isProcessing = true → drain s = s) ∧
    (s.isProcessing = true → s.queue ≠ [] →
      (completeStep s).isProcessing = true ∧ (completeStep s).inFlight = 1 ∧
      (completeStep s).queue = s.queue.tail) := by
  have hI := wInv_reachable s h
  unfold WInv at hI
  refine ⟨?_, ?_, ?_⟩
  · split at hI <;> omega
  · intro hp
    unfold drain
    rw [if_pos (Or.inl hp)]
  · intro hp hq
    rw [hp] at hI
    simp only [if_true] at hI
    unfold completeStep drain
    rw [if_neg (by simp [hq])]
    refine ⟨rfl, ?_, rfl⟩
    simp only
    omega

/-- Worker state after enqueuing jobA into the fresh worker: the drain
starts processing it at once. -/
def demoWorker1 : WorkerState :=
  drain { initWorker with queue := enqueueJob initWorker.queue jobA }

/-- Worker state after a second enqueue while jobA is in flight: jobB
stays queued behind the in-flight call. -/
def demoWorker2 : WorkerState :=
  drain { demoWorker1 with queue := enqueueJob demoWorker1.queue jobB }

/-- Witness for C1 at the reachable state demoWorker2. -/
theorem single_inflight_witness :
    demoWorker2.inFlight ≤ 1 ∧
    (demoWorker2.isProcessing = true → drain demoWorker2 = demoWorker2) ∧
    (demoWorker2.isProcessing = true → demoWorker2.queue ≠ [] →
      (completeStep demoWorker2).isProcessing = true ∧
      (completeStep demoWorker2).inFlight = 1 ∧
      (completeStep demoWorker2).queue = demoWorker2.queue.tail) :=
  single_inflight demoWorker2
    (ReachableW.step
      (ReachableW.step ReachableW.init (WStep.enqueue jobA initWorker))
      (WStep.enqueue jobB demoWorker1))

/-- C8: opening a session for a room id that already has an open session
returns the existing session object with the map unchanged and no file
write; and after any operation sequence the session map holds at most one
entry per room id. -/
theorem startSession_idempotent (sessions : Sessions) (roomId now : String)
    (s : Session) (h : lookupSession sessions roomId = some s) (ops : List SessOp) :
    startSession sessions roomId now = (s, sessions, []) ∧
    ((runSessOps ops).map Prod.fst).Nodup := by
  constructor
  · unfold startSession
    rw [h]
  · exact runSessOps_keys_nodup ops

/-- A concrete open session used by the witnesses. -/
def sessA : Session := { filePath := "r1_t.yaml", startedAt := "t", transcriptions := [] }

/-- Witness for C8: re-opening room r1 while sessA is open, and an
operation sequence that opens, appends to, reopens and closes rooms. -/
theorem startSession_idempotent_witness :
    lookupSession [("r1", sessA)] "r1" = some sessA ∧
    (startSession [("r1", sessA)] "r1" "t2" = (sessA, [("r1", sessA)], []) ∧
      ((runSessOps [SessOp.start "r1" "t", SessOp.start "r2" "t",
          SessOp.save "r1" "u" "hi" 5, SessOp.start "r1" "t4",
          SessOp.finish "r1" "t5"]).map Prod.fst).Nodup) :=
  ⟨rfl,
    startSession_idempotent [("r1", sessA)] "r1" "t2" sessA rfl
      [SessOp.start "r1" "t", SessOp.start "r2" "t",
        SessOp.save "r1" "u" "hi" 5, SessOp.start "r1" "t4",
        SessOp.finish "r1" "t5"]⟩

set_option maxHeartbeats 1000000 in
/-- C6: for every payload P, sample rate R and channel count C (within the
32-bit and 16-bit ranges the Buffer write calls require), writeWav yields a
44-byte header followed by exactly P, with the declared data length equal
to the payload length, byte rate R times C times 2, block align C times 2,
and file size field 36 plus the payload length, so decoding the body
recovers P exactly. -/
theorem writeWav_container (P : List Nat) (R C : Nat)
    (hP : 36 + P.length < 4294967296) (hR : R < 4294967296)
    (hBR : R * C * 2 < 4294967296) (hBA : C * 2 < 65536) :
    (writeWav P R C).length = 44 + P.length ∧
    readU32 (((writeWav P R C).drop 40).take 4) = P.length ∧
    readU32 (((writeWav P R C).drop 24).take 4) = R ∧
    readU32 (((writeWav P R C).drop 28).take 4) = R * C * 2 ∧
    readU16 (((writeWav P R C).drop 32).take 2) = C * 2 ∧
    readU32 (((writeWav P R C).drop 4).take 4) = 36 + P.length ∧
    (writeWav P R C).drop 44 = P := by
  refine ⟨?_, ?_, ?_, ?_, ?_, ?_, ?_⟩
  · simp only [writeWav, u32le, u16le, List.length_append, List.length_cons,
      List.length_nil]
  · have h1 : ((writeWav P R C).drop 40).take 4 = u32le P.length := rfl
    rw [h1]
    simp only [readU32, u32le]
    omega
  · have h1 : ((writeWav P R C).drop 24).take 4 = u32le R := rfl
    rw [h1]
    simp only [readU32, u32le]
    omega
  · have h1 : ((writeWav P R C).drop 28).take 4 = u32le (R * C * 2) := rfl
    rw [h1]
    simp only [readU32, u32le]
    omega
  · have h1 : ((writeWav P R C).drop 32).take 2 = u16le (C * 2) := rfl
    rw [h1]
    simp only [readU16, u16le]
    omega
  · have h1 : ((writeWav P R C).drop 4).take 4 = u32le (36 + P.length) := rfl
    rw [h1]
    simp only [readU32, u32le]
    omega
  · rfl

/-- Witness for C6 at payload [1, 2], rate 48000, one channel. -/
theorem writeWav_container_witness :
    36 + ([1, 2] : List Nat).length < 4294967296 ∧
    48000 < 4294967296 ∧ 48000 * 1 * 2 < 4294967296 ∧ 1 * 2 < 65536 ∧
    ((writeWav [1, 2] 48000 1).length = 44 + ([1, 2] : List Nat).length ∧
      readU32 (((writeWav [1, 2] 48000 1).drop 40).take 4) = ([1, 2] : List Nat).length ∧
      readU32 (((writeWav [1, 2] 48000 1).drop 24).take 4) = 48000 ∧
      readU32 (((writeWav [1, 2] 48000 1).drop 28).take 4) = 48000 * 1 * 2 ∧
      readU16 (((writeWav [1, 2] 48000 1).drop 32).take 2) = 1 * 2 ∧
      readU32 (((writeWav [1, 2] 48000 1).drop 4).take 4) = 36 + ([1, 2] : List Nat).length ∧
      (writeWav [1, 2] 48000 1).drop 44 = [1, 2]) :=
  ⟨by decide, by decide, by decide, by decide,
    writeWav_container [1, 2] 48000 1 (by decide) (by decide) (by decide) (by decide)⟩

/-- C2: starting from the empty queue, no sequence of enqueue and dequeue
operations ever drives the queue past the capacity 3, and enqueuing into a
queue holding exactly 3 jobs removes precisely the oldest entry, keeps the
remaining entries in order, and appends the new job at the tail. -/
theorem queue_bounded_drop_oldest (ops : List QOp) (q : List Job) (j : Job)
    (h : q.length = 3) :
    (runQOps ops).length ≤ 3 ∧ enqueueJob q j = q.tail ++ [j] := by
  constructor
  · exact foldl_applyQOp_length_le ops [] (by simp)
  · unfold enqueueJob
    rw [if_pos (by omega)]

/-- Witness for C2: four enqueues of distinct jobs, and an enqueue into the
full queue [jobA, jobB, jobC]. -/
theorem queue_bounded_drop_oldest_witness :
    ([jobA, jobB, jobC] : List Job).length = 3 ∧
    ((runQOps [QOp.enq jobA, QOp.enq jobB, QOp.enq jobC, QOp.enq jobD]).length ≤ 3 ∧
      enqueueJob [jobA, jobB, jobC] jobD = [jobA, jobB, jobC].tail ++ [jobD]) :=
  ⟨by decide,
    queue_bounded_drop_oldest [QOp.enq jobA, QOp.enq jobB, QOp.enq jobC, QOp.enq jobD]
      [jobA, jobB, jobC] jobD (by decide)⟩

/-- C10: the gate is a total function of the byte buffer; on the empty
segment the mean-amplitude computation divides zero by zero (the place
where the JS float turns into NaN; the rational model yields 0), the
threshold comparison is false, and a flush whose accumulated payload is
empty never enqueues a job. -/
theorem empty_segment_rejected (socketId : String) (pd : PeerData) (q : List Job)
    (h : pd.buffer.flatten = []) :
    avgEnergy [] = 0 ∧ hasVoiceActivity [] = false ∧
    (queueTranscription socketId pd q).2.1 = q := by
  refine ⟨?_, ?_, ?_⟩
  · simp [avgEnergy, toInt16Samples]
  · norm_num [hasVoiceActivity, avgEnergy, toInt16Samples]
  · unfold queueTranscription
    by_cases h0 : pd.buffer.length = 0
    · rw [if_pos h0]
    · rw [if_neg h0]
      norm_num [h, hasVoiceActivity, avgEnergy, toInt16Samples]

/-- Witness for C10: a peer record holding one chunk of zero bytes. -/
theorem empty_segment_rejected_witness :
    (({ buffer := [[]], bufferDuration := 0, userId := "u", roomId := "r",
        sampleRate := 48000, channelCount := 1 } : PeerData).buffer.flatten = []) ∧
    (avgEnergy [] = 0 ∧ hasVoiceActivity [] = false ∧
      (queueTranscription "s"
        { buffer := [[]], bufferDuration := 0, userId := "u", roomId := "r",
          sampleRate := 48000, channelCount := 1 } []).2.1 = []) :=
  ⟨by decide,
    empty_segment_rejected "s"
      { buffer := [[]], bufferDuration := 0, userId := "u", roomId := "r",
        sampleRate := 48000, channelCount := 1 } [] (by decide)⟩

/-- C3 counterexample: the claim that every job is gated twice on the same
payload, whichever provider variant is selected, is false: with the Local
variant selected, the payload [255, 127] is checked exactly once (before
queuing) and never re-checked in the worker. -/
theorem vad_double_check_cex :
    ¬ ∀ (provider : Provider) (pcm : List Nat) (sampleRate channelCount : Nat)
        (remoteResp : Except Unit String) (localResp : Except Unit (Option String)),
        vadTrace provider pcm sampleRate channelCount remoteResp localResp = [pcm, pcm] := by
  intro hclaim
  have h := hclaim .localWhisper [255, 127] 48000 1 (.ok "hello") (.ok (some "hello"))
  simp [vadTrace, providerCall, transcribeWithLocalWhisper] at h

/-- C3 (amended): the gate runs once on the raw payload before queuing for
every flushed segment; when the Remote (Groq) variant is selected the
worker re-checks, but on the wav container bytes (header plus payload),
not on the raw payload; the Local variant performs no second check. -/
theorem vad_checks_per_variant (pcm : List Nat) (sampleRate channelCount : Nat)
    (remoteResp : Except Unit String) (localResp : Except Unit (Option String))
    (socketId : String) (pd : PeerData) (q : List Job) (hb : pd.buffer ≠ []) :
    (queueTranscription socketId pd q).2.2 = [pd.buffer.flatten] ∧
    vadTrace .groq pcm sampleRate channelCount remoteResp localResp =
      [pcm, writeWav pcm sampleRate channelCount] ∧
    vadTrace .localWhisper pcm sampleRate channelCount remoteResp localResp = [pcm] := by
  refine ⟨?_, ?_, ?_⟩
  · unfold queueTranscription
    rw [if_neg (by simpa using hb)]
    by_cases hv : hasVoiceActivity pd.buffer.flatten <;> simp [hv]
  · unfold vadTrace providerCall transcribeWithGroq
    by_cases hv : hasVoiceActivity (writeWav pcm sampleRate channelCount)
    · rw [if_pos hv]
      cases remoteResp <;> rfl
    · rw [if_neg hv]
  · unfold vadTrace providerCall transcribeWithLocalWhisper
    rcases localResp with e | o
    · rfl
    · cases o <;> rfl

/-- A peer record with a pending loud chunk, used by the C3 witness. -/
def peerLoud : PeerData :=
  { buffer := [[255, 127]], bufferDuration := 0, userId := "u1", roomId := "r1",
    sampleRate := 48000, channelCount := 1 }

/-- Witness for the amended C3 at the loud two-byte payload. -/
theorem vad_checks_per_variant_witness :
    (peerLoud.buffer ≠ []) ∧
    ((queueTranscription "s1" peerLoud []).2.2 = [peerLoud.buffer.flatten] ∧
      vadTrace .groq [255, 127] 48000 1 (.ok "hello") (.ok (some "hello")) =
        [[255, 127], writeWav [255, 127] 48000 1] ∧
      vadTrace .localWhisper [255, 127] 48000 1 (.ok "hello") (.ok (some "hello")) =
        [[255, 127]]) :=
  ⟨by decide,
    vad_checks_per_variant [255, 127] 48000 1 (.ok "hello") (.ok (some "hello"))
      "s1" peerLoud [] (by decide)⟩

/-- C4 counterexample: the claim that both provider variants deny-list the
returned text is false: "thank you" is on the deny-list, yet the Local
variant returns it unchanged instead of collapsing it to empty text. -/
theorem hallucination_both_variants_cex :
    ¬ ∀ (provider : Provider) (wavBytes : List Nat) (t : String),
        isHallucination t = true →
        (providerCall provider wavBytes (.ok t) (.ok (some t))).2 = .ok "" := by
  intro hclaim
  have h := hclaim .localWhisper [] "thank you" (by decide)
  simp [providerCall, transcribeWithLocalWhisper] at h

/-- C4 (amended): only the Remote (Groq) variant trims, lower-cases and
compares the returned text against the deny-list, with or without one
trailing period, collapsing a match to empty text; the Local variant
returns the subprocess output unfiltered; and in both variants an empty
result is neither broadcast nor persisted. -/
theorem hallucination_filter_groq_only (t : String) (sessions : Sessions)
    (j : Job) (localResp : Except Unit (Option String)) (now : Nat)
    (hh : isHallucination t = true)
    (hv : hasVoiceActivity (writeWav j.audioBuffer j.sampleRate j.channelCount) = true) :
    filterHallucinations t = "" ∧
    (transcribeWithLocalWhisper (.ok (some t))).2 = .ok t ∧
    (processOneJob .groq sessions j (.ok t) localResp now).sessions = sessions ∧
    (processOneJob .groq sessions j (.ok t) localResp now).writes = [] ∧
    (processOneJob .groq sessions j (.ok t) localResp now).emits = [] ∧
    (processOneJob .localWhisper sessions j (.ok t) (.ok none) now).emits = [] ∧
    (processOneJob .localWhisper sessions j (.ok t) (.ok none) now).writes = [] := by
  have hf : filterHallucinations t = "" := by
    unfold filterHallucinations
    rw [hh]
    rfl
  have hcall : providerCall .groq (writeWav j.audioBuffer j.sampleRate j.channelCount)
      (.ok t) localResp =
      ([writeWav j.audioBuffer j.sampleRate j.channelCount], .ok "") := by
    unfold providerCall transcribeWithGroq
    rw [if_pos hv]
    simp [hf]
  have h0 : jsTrim "" = "" := by decide
  refine ⟨hf, rfl, ?_, ?_, ?_, ?_, ?_⟩
  · unfold processOneJob
    simp [hcall, h0]
  · unfold processOneJob
    simp [hcall, h0]
  · unfold processOneJob
    simp [hcall, h0]
  · rfl
  · rfl

/-- Witness for the amended C4: the deny-listed transcript "Thank you."
returned for the loud job jobA. -/
theorem hallucination_filter_groq_only_witness :
    isHallucination "Thank you." = true ∧
    hasVoiceActivity (writeWav jobA.audioBuffer jobA.sampleRate jobA.channelCount) = true ∧
    (filterHallucinations "Thank you." = "" ∧
      (transcribeWithLocalWhisper (.ok (some "Thank you."))).2 = .ok "Thank you." ∧
      (processOneJob .groq [] jobA (.ok "Thank you.") (.ok none) 7).sessions = [] ∧
      (processOneJob .groq [] jobA (.ok "Thank you.") (.ok none) 7).writes = [] ∧
      (processOneJob .groq [] jobA (.ok "Thank you.") (.ok none) 7).emits = [] ∧
      (processOneJob .localWhisper [] jobA (.ok "Thank you.") (.ok none) 7).emits = [] ∧
      (processOneJob .localWhisper [] jobA (.ok "Thank you.") (.ok none) 7).writes = []) :=
  ⟨by decide,
    (hasVoiceActivityN_eq (writeWav jobA.audioBuffer jobA.sampleRate jobA.channelCount)).symm.trans
      (by decide),
    hallucination_filter_groq_only "Thank you." [] jobA (.ok none) 7 (by decide)
      ((hasVoiceActivityN_eq
        (writeWav jobA.audioBuffer jobA.sampleRate jobA.channelCount)).symm.trans (by decide))⟩

/-- C5: a provider failure (network error on the Remote path, spawn error
or nonzero exit on the Local path) is absorbed by the worker for that job:
the session map is unchanged, nothing is written and nothing is broadcast,
the failed job is not re-queued, and the completion transition drains the
next queued job exactly as after a success. -/
theorem provider_failure_dropped (sessions : Sessions) (j : Job) (now : Nat)
    (remoteResp : Except Unit String) (localResp : Except Unit (Option String))
    (s : WorkerState)
    (hv : hasVoiceActivity (writeWav j.audioBuffer j.sampleRate j.channelCount) = true)
    (_hp : s.isProcessing = true) (hq : s.queue ≠ []) :
    (processOneJob .groq sessions j (.error ()) localResp now).sessions = sessions ∧
    (processOneJob .groq sessions j (.error ()) localResp now).writes = [] ∧
    (processOneJob .groq sessions j (.error ()) localResp now).emits = [] ∧
    (processOneJob .localWhisper sessions j remoteResp (.error ()) now).sessions = sessions ∧
    (processOneJob .localWhisper sessions j remoteResp (.error ()) now).writes = [] ∧
    (processOneJob .localWhisper sessions j remoteResp (.error ()) now).emits = [] ∧
    (completeStep s).queue = s.queue.tail ∧ (completeStep s).isProcessing = true := by
  have hcall : providerCall .groq (writeWav j.audioBuffer j.sampleRate j.channelCount)
      (.error ()) localResp =
      ([writeWav j.audioBuffer j.sampleRate j.channelCount], .error ()) := by
    unfold providerCall transcribeWithGroq
    rw [if_pos hv]
  have hcs : (completeStep s) =
      { queue := s.queue.tail, isProcessing := true, inFlight := s.inFlight - 1 + 1 } := by
    unfold completeStep drain
    rw [if_neg (by simp [hq])]
  refine ⟨?_, ?_, ?_, rfl, rfl, rfl, ?_, ?_⟩
  · unfold processOneJob
    simp [hcall]
  · unfold processOneJob
    simp [hcall]
  · unfold processOneJob
    simp [hcall]
  · rw [hcs]
  · rw [hcs]

/-- Witness for C5: a failing call for jobA while jobB waits in the queue. -/
theorem provider_failure_dropped_witness :
    hasVoiceActivity (writeWav jobA.audioBuffer jobA.sampleRate jobA.channelCount) = true ∧
    (({ queue := [jobB], isProcessing := true, inFlight := 1 } : WorkerState).isProcessing
        = true) ∧
    (({ queue := [jobB], isProcessing := true, inFlight := 1 } : WorkerState).queue ≠ []) ∧
    ((processOneJob .groq [("r1", sessA)] jobA (.error ()) (.ok none) 9).sessions
        = [("r1", sessA)] ∧
      (processOneJob .groq [("r1", sessA)] jobA (.error ()) (.ok none) 9).writes = [] ∧
      (processOneJob .groq [("r1", sessA)] jobA (.error ()) (.ok none) 9).emits = [] ∧
      (processOneJob .localWhisper [("r1", sessA)] jobA (.ok "x") (.error ()) 9).sessions
        = [("r1", sessA)] ∧
      (processOneJob .localWhisper [("r1", sessA)] jobA (.ok "x") (.error ()) 9).writes = [] ∧
      (processOneJob .localWhisper [("r1", sessA)] jobA (.ok "x") (.error ()) 9).emits = [] ∧
      (completeStep { queue := [jobB], isProcessing := true, inFlight := 1 }).queue
        = ({ queue := [jobB], isProcessing := true, inFlight := 1 } : WorkerState).queue.tail ∧
      (completeStep { queue := [jobB], isProcessing := true, inFlight := 1 }).isProcessing
        = true) :=
  ⟨(hasVoiceActivityN_eq (writeWav jobA.audioBuffer jobA.sampleRate jobA.channelCount)).symm.trans
      (by decide),
    rfl, by decide,
    provider_failure_dropped [("r1", sessA)] jobA 9 (.ok "x") (.ok none)
      { queue := [jobB], isProcessing := true, inFlight := 1 }
      ((hasVoiceActivityN_eq
        (writeWav jobA.audioBuffer jobA.sampleRate jobA.channelCount)).symm.trans (by decide))
      rfl (by decide)⟩

/-- C9: when the worker completes a job for a room whose session is gone,
saveTranscription returns without touching the map or the disk, while the
accepted transcript is still broadcast to the room unconditionally. -/
theorem orphan_room_broadcast (sessions : Sessions) (j : Job) (t : String)
    (userId text : String) (ts now : Nat)
    (hno : lookupSession sessions j.roomId = none) (ht : jsTrim t ≠ "") :
    saveTranscription sessions j.roomId userId text ts = (sessions, []) ∧
    (processOneJob .localWhisper sessions j (.ok "") (.ok (some t)) now).emits =
      [{ userId := j.userId, text := jsTrim t, timestamp := now }] ∧
    (processOneJob .localWhisper sessions j (.ok "") (.ok (some t)) now).writes = [] ∧
    (processOneJob .localWhisper sessions j (.ok "") (.ok (some t)) now).sessions
      = sessions := by
  have hsave : ∀ (u x : String) (k : Nat),
      saveTranscription sessions j.roomId u x k = (sessions, []) := by
    intro u x k
    unfold saveTranscription
    rw [hno]
  refine ⟨hsave userId text ts, ?_, ?_, ?_⟩ <;>
    simp [processOneJob, providerCall, transcribeWithLocalWhisper, ht, hsave]

/-- Witness for C9: a job for room r9 with no open session; the transcript
"hello" is broadcast but nowhere persisted. -/
theorem orphan_room_broadcast_witness :
    lookupSession [("r1", sessA)] jobR9.roomId = none ∧ jsTrim "hello" ≠ "" ∧
    (saveTranscription [("r1", sessA)] jobR9.roomId "u" "x" 3 = ([("r1", sessA)], []) ∧
      (processOneJob .localWhisper [("r1", sessA)] jobR9 (.ok "") (.ok (some "hello")) 4).emits =
        [{ userId := jobR9.userId, text := jsTrim "hello", timestamp := 4 }] ∧
      (processOneJob .localWhisper [("r1", sessA)] jobR9 (.ok "") (.ok (some "hello")) 4).writes
        = [] ∧
      (processOneJob .localWhisper [("r1", sessA)] jobR9 (.ok "") (.ok (some "hello")) 4).sessions
        = [("r1", sessA)]) :=
  ⟨by decide, by decide,
    orphan_room_broadcast [("r1", sessA)] jobR9 "hello" "u" "x" 3 4 (by decide) (by decide)⟩


/-- dsum distributes over cons. -/
theorem dsum_cons (f : Frame) (l : List Frame) : dsum (f :: l) = durOf f + dsum l := by
  simp [dsum]

/-- One unfolding step of runFrames. -/
theorem runFrames_cons (cfg : ℚ) (sid : String) (f : Frame) (rest : List Frame)
    (st : PeerData × List Job × Nat) :
    runFrames cfg sid (f :: rest) st =
      runFrames cfg sid rest (ondata cfg sid st.1 st.2.1 st.2.2 f) := rfl

/-- While every running total stays below the threshold no flush happens:
chunks accumulate, the duration is the running sum, and the queue and the
flush counter are untouched. -/
theorem runFrames_no_flush (cfg : ℚ) (sid : String) (frames : List Frame)
    (pd : PeerData) (q : List Job) (c : Nat)
    (h : ∀ k, k < frames.length → pd.bufferDuration + dsum (frames.take (k + 1)) < cfg) :
    (runFrames cfg sid frames (pd, q, c)).1.buffer
        = pd.buffer ++ frames.map (fun f => encodeInt16LE f.samples) ∧
    (runFrames cfg sid frames (pd, q, c)).1.bufferDuration
        = pd.bufferDuration + dsum frames ∧
    (runFrames cfg sid frames (pd, q, c)).2.1 = q ∧
    (runFrames cfg sid frames (pd, q, c)).2.2 = c := by
  induction frames generalizing pd q c with
  | nil =>
      exact ⟨by simp [runFrames], by simp [runFrames, dsum], rfl, rfl⟩
  | cons f rest ih =>
      have h0 : pd.bufferDuration + durOf f < cfg := by
        have h1 := h 0 (by simp)
        simpa [dsum] using h1
      rw [runFrames_cons]
      have hstep : ondata cfg sid pd q c f =
          ({ pd with
             buffer := pd.buffer ++ [encodeInt16LE f.samples],
             bufferDuration := pd.bufferDuration + durOf f,
             sampleRate := f.sampleRate,
             channelCount := f.channelCount }, q, c) := by
        unfold ondata
        rw [if_neg (not_le.mpr h0)]
      rw [hstep]
      have ih2 := ih
        { pd with
          buffer := pd.buffer ++ [encodeInt16LE f.samples],
          bufferDuration := pd.bufferDuration + durOf f,
          sampleRate := f.sampleRate,
          channelCount := f.channelCount } q c (by
        intro k hk
        have h2 := h (k + 1) (by simpa using Nat.succ_lt_succ hk)
        simp only [List.take_succ_cons, dsum_cons] at h2 ⊢
        linarith)
      obtain ⟨b1, b2, b3, b4⟩ := ih2
      refine ⟨?_, ?_, b3, b4⟩
      · rw [b1]
        simp
      · rw [b2, dsum_cons]
        ring

/-- C7: delivering a frame sequence to a fresh peer whose running duration
first reaches the threshold at the final frame produces exactly one flush,
at that frame, and immediately afterwards the accumulated duration is zero
and the chunk buffer is empty. -/
theorem flush_exactly_once (cfg : ℚ) (sid uid rid : String) (frames : List Frame)
    (g : Frame) (q : List Job)
    (hpre : ∀ k, k < frames.length → dsum (frames.take (k + 1)) < cfg)
    (hcross : cfg ≤ dsum frames + durOf g) :
    (runFrames cfg sid (frames ++ [g]) (freshPeer uid rid, q, 0)).2.2 = 1 ∧
    (runFrames cfg sid (frames ++ [g]) (freshPeer uid rid, q, 0)).1.buffer = [] ∧
    (runFrames cfg sid (frames ++ [g]) (freshPeer uid rid, q, 0)).1.bufferDuration = 0 := by
  have hrun := runFrames_no_flush cfg sid frames (freshPeer uid rid) q 0 (by
    intro k hk
    have h1 := hpre k hk
    simpa [freshPeer] using h1)
  obtain ⟨b1, b2, b3, b4⟩ := hrun
  have hsplit : runFrames cfg sid (frames ++ [g]) (freshPeer uid rid, q, 0)
      = runFrames cfg sid [g] (runFrames cfg sid frames (freshPeer uid rid, q, 0)) := by
    unfold runFrames
    rw [List.foldl_append]
  rw [hsplit]
  set st := runFrames cfg sid frames (freshPeer uid rid, q, 0) with hst
  have hone : runFrames cfg sid [g] st = ondata cfg sid st.1 st.2.1 st.2.2 g := rfl
  rw [hone]
  have hdur : cfg ≤ (({ st.1 with
      buffer := st.1.buffer ++ [encodeInt16LE g.samples],
      bufferDuration := st.1.bufferDuration + durOf g,
      sampleRate := g.sampleRate,
      channelCount := g.channelCount } : PeerData)).bufferDuration := by
    simp only
    rw [b2]
    simp only [freshPeer]
    rw [zero_add]
    exact hcross
  unfold ondata
  rw [if_pos hdur, b4]
  have hlen : ¬ ((({ st.1 with
      buffer := st.1.buffer ++ [encodeInt16LE g.samples],
      bufferDuration := st.1.bufferDuration + durOf g,
      sampleRate := g.sampleRate,
      channelCount := g.channelCount } : PeerData)).buffer.length = 0) := by
    simp
  unfold queueTranscription
  rw [if_neg hlen]
  refine ⟨rfl, ?_, ?_⟩ <;>
    rcases Bool.eq_false_or_eq_true
      (hasVoiceActivity (st.1.buffer.flatten ++ encodeInt16LE g.samples)) with hv | hv <;>
    simp [hv]

/-- The crossing frame of the C7 witness: ten samples at one hertz. -/
def frameG : Frame :=
  { samples := [0, 0, 0, 0, 0, 0, 0, 0, 0, 0], sampleRate := 1, channelCount := 1 }

/-- Witness for C7: an empty quiet prefix and one ten-second frame crossing
the five-second threshold in a single step. -/
theorem flush_exactly_once_witness :
    (5 : ℚ) ≤ dsum [] + durOf frameG ∧
    ((runFrames 5 "s" ([] ++ [frameG]) (freshPeer "u" "r", [], 0)).2.2 = 1 ∧
      (runFrames 5 "s" ([] ++ [frameG]) (freshPeer "u" "r", [], 0)).1.buffer = [] ∧
      (runFrames 5 "s" ([] ++ [frameG]) (freshPeer "u" "r", [], 0)).1.bufferDuration = 0) :=
  ⟨by norm_num [dsum, durOf, frameG],
    flush_exactly_once 5 "s" "u" "r" [] frameG []
      (fun k hk => absurd hk (Nat.not_lt_zero k))
      (by norm_num [dsum, durOf, frameG])⟩


end WAS
